import Mathlib

/-!
Shallow embedding of `lib/SILPasses/DataflowDiagnostics.cpp`: a read-only
SIL pass that scans every instruction of a function and emits
`missing_return`, `non_exhaustive_switch`, `return_from_noreturn` and
`static_report_error` diagnostics.

Modelling conventions:
* source positions are `Nat`; a `SourceLoc` obtained from a possibly
  invalid `SILLocation` is an `Option Nat` (`none` = null source location);
* the fatal paths of the C++ code (`llvm_unreachable`, failed `assert`,
  the unchecked `Args[0]` subscript) are the `none` result of an
  `Option`-returning embedding;
* parent pointers (`I->getParent()->getParent()`) are modelled by passing
  the enclosing `SILFunction` explicitly;
* the AST node referenced by a valid location carries exactly the data the
  pass reads from it (result type and no-return flag of a function
  declaration or closure expression).
-/

/-- Declared result type of a function or closure; the pass only asks
whether it is `Void` (`ResTy->isVoid()`). -/
inductive Ty
  | void
  | int
  | other (id : Nat)
  deriving DecidableEq

/-- Embeds `Type::isVoid`. -/
def Ty.isVoid : Ty → Bool
  | .void => true
  | _ => false

/-- Discriminator of the AST node a valid `SILLocation` refers to, with the
data the pass extracts from it.  `funcDecl` covers `FuncDecl` (the only
`AbstractFunctionDecl` the pass can meet), carrying `getResultType()` and
`getType()->castTo<AnyFunctionType>()->isNoReturn()`; likewise
`closureExpr` for `ClosureExpr`.  `returnStmt` is a `ReturnLocation`,
`implicitReturnStmt` an `ImplicitReturnLocation`. -/
inductive ASTNodeRef
  | funcDecl (resultType : Ty) (isNoReturn : Bool)
  | closureExpr (resultType : Ty) (isNoReturn : Bool)
  | switchStmt
  | returnStmt
  | implicitReturnStmt
  | otherNode
  deriving DecidableEq

/-- Embeds `SILLocation`: either invalid (synthesized, no AST provenance) or a
reference to an AST node together with a start and an end source
position. -/
inductive SILLocation
  | invalid
  | valid (node : ASTNodeRef) (startPos : Nat) (endPos : Nat)
  deriving DecidableEq

/-- Embeds `SILLocation::hasASTLocation`. -/
def SILLocation.hasASTLocation : SILLocation → Bool
  | .invalid => false
  | .valid _ _ _ => true

/-- Embeds `SILLocation::getSourceLoc`: null (`none`) on an invalid location. -/
def SILLocation.getSourceLoc : SILLocation → Option Nat
  | .invalid => none
  | .valid _ s _ => some s

/-- Embeds `SILLocation::getEndSourceLoc`: null (`none`) on an invalid location. -/
def SILLocation.getEndSourceLoc : SILLocation → Option Nat
  | .invalid => none
  | .valid _ _ e => some e

/-- Embeds `getAsASTNode<FuncDecl>`: the result type and no-return flag when the
location refers to a function declaration. -/
def SILLocation.getAsFuncDecl : SILLocation → Option (Ty × Bool)
  | .valid (.funcDecl rt nr) _ _ => some (rt, nr)
  | _ => none

/-- Embeds `getAsASTNode<ClosureExpr>`. -/
def SILLocation.getAsClosureExpr : SILLocation → Option (Ty × Bool)
  | .valid (.closureExpr rt nr) _ _ => some (rt, nr)
  | _ => none

/-- Embeds `isASTNode<AbstractFunctionDecl>`. -/
def SILLocation.isASTNodeAbstractFunctionDecl : SILLocation → Bool
  | .valid (.funcDecl _ _) _ _ => true
  | _ => false

/-- Embeds `isASTNode<ClosureExpr>`. -/
def SILLocation.isASTNodeClosureExpr : SILLocation → Bool
  | .valid (.closureExpr _ _) _ _ => true
  | _ => false

/-- Embeds `isASTNode<SwitchStmt>`. -/
def SILLocation.isASTNodeSwitchStmt : SILLocation → Bool
  | .valid .switchStmt _ _ => true
  | _ => false

/-- Embeds `SILLocation::is<ReturnLocation>`. -/
def SILLocation.isReturnLoc : SILLocation → Bool
  | .valid .returnStmt _ _ => true
  | _ => false

/-- Embeds `SILLocation::is<ImplicitReturnLocation>`. -/
def SILLocation.isImplicitReturnLoc : SILLocation → Bool
  | .valid .implicitReturnStmt _ _ => true
  | _ => false

/-- The builtin kinds the pass distinguishes (`BuiltinInfo.ID`). -/
inductive BuiltinValueKind
  | StaticReport
  | Trap
  | OtherKind (id : Nat)
  deriving DecidableEq

/-- A SIL value as seen through the operands the pass inspects: the
result of a `BuiltinFunctionRefInst`, of an `IntegerLiteralInst`, or of
any other instruction. -/
inductive SILValue
  | builtinRef (id : BuiltinValueKind)
  | intLiteral (v : Int)
  | otherValue (id : Nat)
  deriving DecidableEq

/-- The instruction kinds the pass dispatches on; every instruction
carries its `SILLocation` (`getLoc`).  `apply` carries the callee operand
(`getCallee().getDef()`) and the argument list (`getArguments()`). -/
inductive SILInstruction
  | unreachable (loc : SILLocation)
  | branch (loc : SILLocation)
  | ret (loc : SILLocation)
  | apply (loc : SILLocation) (callee : SILValue) (args : List SILValue)
  | integerLiteral (loc : SILLocation) (v : Int)
  | builtinFunctionRef (loc : SILLocation) (id : BuiltinValueKind)
  | otherInst (loc : SILLocation)
  deriving DecidableEq

/-- Embeds `SILInstruction::getLoc`. -/
def SILInstruction.getLoc : SILInstruction → SILLocation
  | .unreachable l => l
  | .branch l => l
  | .ret l => l
  | .apply l _ _ => l
  | .integerLiteral l _ => l
  | .builtinFunctionRef l _ => l
  | .otherInst l => l

/-- Embeds `isa<BranchInst>`. -/
def SILInstruction.isBranchInst : SILInstruction → Bool
  | .branch _ => true
  | _ => false

/-- Embeds `isa<ReturnInst>`. -/
def SILInstruction.isReturnInst : SILInstruction → Bool
  | .ret _ => true
  | _ => false

/-- A basic block: an ordered sequence of instructions. -/
structure SILBasicBlock where
  instructions : List SILInstruction
  deriving DecidableEq

/-- A SIL function: its location (`SILFunction::getLocation`, the AST
construct it was lowered from) and its ordered basic blocks. -/
structure SILFunction where
  loc : SILLocation
  blocks : List SILBasicBlock
  deriving DecidableEq

/-- The diagnostic kinds the pass emits, with their arguments
(`missing_return` carries the result type and the 0 = function /
1 = closure wording selector). -/
inductive DiagKind
  | missing_return (resTy : Ty) (selector : Nat)
  | non_exhaustive_switch
  | return_from_noreturn
  | static_report_error
  deriving DecidableEq

/-- One emitted diagnostic: the source position it is attached to
(`none` for a null source location) and its kind. -/
structure Diagnostic where
  pos : Option Nat
  kind : DiagKind
  deriving DecidableEq

/-- Embeds `diagnoseMissingReturn`: reads the enclosing function's location to
recover the declared result type and no-return flag (fatal when the
function is neither a function declaration nor a closure expression),
suppresses the diagnostic for `Void` result type or no-return signature,
and otherwise emits `missing_return` at the end source position of the
instruction's location, selecting closure wording from the function's
location.  The failed `assert(L && ResTy)` is the `none` result. -/
def diagnoseMissingReturn (UI : SILInstruction) (F : SILFunction) :
    Option (List Diagnostic) :=
  let FLoc := F.loc
  let info :=
    match FLoc.getAsFuncDecl with
    | some p => some p
    | none => FLoc.getAsClosureExpr
  match info with
  | none => none
  | some (resTy, noRet) =>
    if resTy.isVoid || noRet then
      some []
    else
      let L := UI.getLoc
      if L.hasASTLocation then
        some [⟨L.getEndSourceLoc,
               .missing_return resTy (if FLoc.isASTNodeClosureExpr then 1 else 0)⟩]
      else
        none

/-- Embeds `diagnoseNonExhaustiveSwitch`: emits `non_exhaustive_switch` at the
end source position of the instruction's location; the failed `assert(L)`
is the `none` result. -/
def diagnoseNonExhaustiveSwitch (UI : SILInstruction) :
    Option (List Diagnostic) :=
  let L := UI.getLoc
  if L.hasASTLocation then
    some [⟨L.getEndSourceLoc, .non_exhaustive_switch⟩]
  else
    none

/-- Embeds `diagnoseUnreachable`: only `UnreachableInst` is considered; an
invalid location (synthesized by SIL passes such as DCE) is silently
skipped; a location tagging a function declaration or closure dispatches
to `diagnoseMissingReturn`, a switch statement to
`diagnoseNonExhaustiveSwitch`, anything else is skipped. -/
def diagnoseUnreachable (I : SILInstruction) (F : SILFunction) :
    Option (List Diagnostic) :=
  match I with
  | .unreachable _ =>
    let L := I.getLoc
    if !L.hasASTLocation then
      some []
    else if L.isASTNodeAbstractFunctionDecl || L.isASTNodeClosureExpr then
      diagnoseMissingReturn I F
    else if L.isASTNodeSwitchStmt then
      diagnoseNonExhaustiveSwitch I
    else
      some []
  | _ => some []

/-- Embeds `diagnoseReturn`: only `Branch` and `Return` terminators are
considered; when the enclosing function is a function declaration whose
type is no-return, a terminator whose location is a `ReturnLocation` or an
`ImplicitReturnLocation` gets a `return_from_noreturn` diagnostic at the
location's start source position (the source tests each of the two
location kinds with its own `if`, hence the concatenation). -/
def diagnoseReturn (I : SILInstruction) (F : SILFunction) : List Diagnostic :=
  if !(I.isBranchInst || I.isReturnInst) then
    []
  else
    match F.loc.getAsFuncDecl with
    | none => []
    | some (_, noRet) =>
      if noRet then
        let L := I.getLoc
        (if L.isReturnLoc then [⟨L.getSourceLoc, .return_from_noreturn⟩] else [])
          ++ (if L.isImplicitReturnLoc then
                [⟨L.getSourceLoc, .return_from_noreturn⟩]
              else [])
      else
        []

/-- Embeds `diagnoseStaticReports`: for an `ApplyInst` whose callee is a
`BuiltinFunctionRefInst` of `BuiltinValueKind::StaticReport`, inspects the
first argument (`Args[0]`, `none` when out of bounds) and emits
`static_report_error` at the instruction's source position exactly when it
is an `IntegerLiteralInst` of value 1. -/
def diagnoseStaticReports (I : SILInstruction) : Option (List Diagnostic) :=
  match I with
  | .apply L callee args =>
    match callee with
    | .builtinRef bid =>
      match bid with
      | .StaticReport =>
        match args.head? with
        | none => none
        | some arg =>
          match arg with
          | .intLiteral v => if v ≠ 1 then some [] else
              some [⟨L.getSourceLoc, .static_report_error⟩]
          | _ => some []
      | _ => some []
    | _ => some []
  | _ => some []

/-- The diagnostics one instruction contributes, in the order the source
invokes the three diagnosers (`diagnoseUnreachable`, `diagnoseReturn`,
`diagnoseStaticReports`). -/
def diagnoseInstruction (F : SILFunction) (I : SILInstruction) :
    Option (List Diagnostic) :=
  match diagnoseUnreachable I F with
  | none => none
  | some d1 =>
    let d2 := diagnoseReturn I F
    match diagnoseStaticReports I with
    | none => none
    | some d3 => some (d1 ++ d2 ++ d3)

namespace EmitDFDiagnostics

/-- The inner loop of `EmitDFDiagnostics::run`: visit the instructions of
one block in order, appending each instruction's diagnostics to the
sink. -/
def runInsts (F : SILFunction) (sink : List Diagnostic) :
    List SILInstruction → Option (List Diagnostic)
  | [] => some sink
  | I :: rest =>
    match diagnoseInstruction F I with
    | none => none
    | some d => runInsts F (sink ++ d) rest

/-- The outer loop of `EmitDFDiagnostics::run`: visit the basic blocks in
order. -/
def runBlocks (F : SILFunction) (sink : List Diagnostic) :
    List SILBasicBlock → Option (List Diagnostic)
  | [] => some sink
  | BB :: rest =>
    match runInsts F sink BB.instructions with
    | none => none
    | some s => runBlocks F s rest

/-- Embeds `EmitDFDiagnostics::run`: scan every instruction of every basic block
of the function, threading the append-only diagnostic sink. -/
def run (F : SILFunction) (sink : List Diagnostic) :
    Option (List Diagnostic) :=
  runBlocks F sink F.blocks

end EmitDFDiagnostics

/-- The state the pass acts on: the function under scan and the
diagnostic sink of the AST context. -/
structure PassState where
  F : SILFunction
  sink : List Diagnostic
  deriving DecidableEq

/-- One invocation of the pass on a function: the scan only appends to
the sink; the IR is left as it was read. -/
def runPass (st : PassState) : Option PassState :=
  match EmitDFDiagnostics.run st.F st.sink with
  | none => none
  | some s => some ⟨st.F, s⟩

/-- All instructions of a function in visit order: block order, then
in-block instruction order. -/
def allInstructions (F : SILFunction) : List SILInstruction :=
  (F.blocks.map SILBasicBlock.instructions).flatten

/-- Total, `Option`-valued map: `some` exactly when `f` succeeds on every
element, collecting the results in order. -/
def mapOpt (f : α → Option β) : List α → Option (List β)
  | [] => some []
  | a :: as =>
    match f a with
    | none => none
    | some b => (mapOpt f as).map (b :: ·)

/-- The AST node of a function-like construct: a function declaration or,
when `isClosure` is set, a closure expression, with the given declared
result type and no-return flag. -/
def mkFunctionNode (isClosure : Bool) (rt : Ty) (nr : Bool) : ASTNodeRef :=
  if isClosure then .closureExpr rt nr else .funcDecl rt nr

/-- Whether a location refers to a function declaration whose signature is
marked no-return. -/
def isNoReturnFuncDecl (L : SILLocation) : Bool :=
  match L.getAsFuncDecl with
  | some (_, nr) => nr
  | none => false

/-- The AST node kinds for which an `Unreachable` terminator is diagnosed
at all: function declaration, closure expression, switch statement. -/
def isRecognizedUnreachableNode : ASTNodeRef → Bool
  | .funcDecl _ _ => true
  | .closureExpr _ _ => true
  | .switchStmt => true
  | _ => false

/-- A sample function used by the witnesses: declared to return `Int`,
with a static-report call, a non-exhaustive-switch unreachable and a
missing-return unreachable spread over three blocks. -/
def egFn : SILFunction :=
  ⟨.valid (.funcDecl .int false) 0 100,
   [⟨[.otherInst .invalid,
      .apply (.valid .otherNode 10 12) (.builtinRef .StaticReport)
        [.intLiteral 1]]⟩,
    ⟨[.unreachable (.valid .switchStmt 20 30)]⟩,
    ⟨[.unreachable (.valid (.funcDecl .int false) 0 100)]⟩]⟩

/-- The diagnostics one scan of `egFn` emits, in visit order. -/
def egDiags : List Diagnostic :=
  [⟨some 10, .static_report_error⟩,
   ⟨some 30, .non_exhaustive_switch⟩,
   ⟨some 100, .missing_return .int 0⟩]

/-- A pre-existing sink content used by the frame witness. -/
def egPre : List Diagnostic := [⟨none, .return_from_noreturn⟩]

/-- Lemma: `mapOpt` succeeds with one output element per input element. -/
lemma mapOpt_length_eq (f : α → Option β) (l : List α) :
    ∀ bs, mapOpt f l = some bs → bs.length = l.length := by
  induction l with
  | nil =>
    intro bs h
    simp only [mapOpt, Option.some_inj] at h
    simp [← h]
  | cons a as ih =>
    intro bs h
    simp only [mapOpt] at h
    cases hf : f a with
    | none => rw [hf] at h; exact absurd h (by simp)
    | some b =>
      rw [hf] at h
      cases hm : mapOpt f as with
      | none => rw [hm] at h; exact absurd h (by simp)
      | some cs =>
        rw [hm] at h
        simp only [Option.map_some', Option.some_inj] at h
        simp [← h, ih cs hm]

/-- Lemma: `mapOpt` over an appended list splits into the two halves. -/
lemma mapOpt_append (f : α → Option β) (l1 l2 : List α) :
    mapOpt f (l1 ++ l2)
      = (mapOpt f l1).bind (fun b1 => (mapOpt f l2).map (b1 ++ ·)) := by
  induction l1 with
  | nil =>
    cases h2 : mapOpt f l2 <;> simp [mapOpt, h2]
  | cons a as ih =>
    cases hf : f a with
    | none => simp [mapOpt, hf]
    | some b =>
      simp only [List.cons_append, mapOpt, hf]
      cases h1 : mapOpt f as <;> cases h2 : mapOpt f l2 <;>
        simp [ih, h1, h2]

namespace EmitDFDiagnostics

/-- The inner loop only appends: running it on a non-empty sink prefixes
the sink to the result of running it on an empty sink. -/
lemma runInsts_shift (F : SILFunction) (insts : List SILInstruction) :
    ∀ sink, runInsts F sink insts
        = (runInsts F [] insts).map (sink ++ ·) := by
  induction insts with
  | nil => intro sink; simp [runInsts]
  | cons I rest ih =>
    intro sink
    cases hd : diagnoseInstruction F I with
    | none => simp [runInsts, hd]
    | some d =>
      simp only [runInsts, hd, List.nil_append]
      rw [ih (sink ++ d), ih d]
      cases hr : runInsts F [] rest <;> simp [List.append_assoc]

/-- The inner loop is the in-order concatenation of the per-instruction
diagnostics. -/
lemma runInsts_eq_mapOpt (F : SILFunction) (insts : List SILInstruction) :
    runInsts F [] insts
      = (mapOpt (diagnoseInstruction F) insts).map List.flatten := by
  induction insts with
  | nil => simp [runInsts, mapOpt]
  | cons I rest ih =>
    cases hd : diagnoseInstruction F I with
    | none => simp [runInsts, mapOpt, hd]
    | some d =>
      simp only [runInsts, mapOpt, hd, List.nil_append]
      rw [runInsts_shift F rest d, ih]
      cases hm : mapOpt (diagnoseInstruction F) rest <;> simp

/-- The outer loop only appends to the sink. -/
lemma runBlocks_shift (F : SILFunction) (bbs : List SILBasicBlock) :
    ∀ sink, runBlocks F sink bbs
        = (runBlocks F [] bbs).map (sink ++ ·) := by
  induction bbs with
  | nil => intro sink; simp [runBlocks]
  | cons BB rest ih =>
    intro sink
    cases hr : runInsts F [] BB.instructions with
    | none => simp [runBlocks, runInsts_shift F BB.instructions sink, hr]
    | some s =>
      simp only [runBlocks, runInsts_shift F BB.instructions sink, hr,
        Option.map_some']
      rw [ih (sink ++ s), ih s]
      cases hb : runBlocks F [] rest <;> simp [List.append_assoc]

/-- The outer loop is the in-order concatenation of the per-instruction
diagnostics of the flattened instruction sequence. -/
lemma runBlocks_eq_mapOpt (F : SILFunction) (bbs : List SILBasicBlock) :
    runBlocks F [] bbs
      = (mapOpt (diagnoseInstruction F)
          ((bbs.map SILBasicBlock.instructions).flatten)).map List.flatten := by
  induction bbs with
  | nil => simp [runBlocks, mapOpt]
  | cons BB rest ih =>
    cases h1 : mapOpt (diagnoseInstruction F) BB.instructions with
    | none =>
      simp [runBlocks, List.flatten_cons, mapOpt_append, runInsts_eq_mapOpt, h1]
    | some b1 =>
      simp only [runBlocks, List.map_cons, List.flatten_cons, mapOpt_append,
        runInsts_eq_mapOpt, h1, Option.map_some']
      rw [runBlocks_shift F rest b1.flatten, ih]
      cases h2 : mapOpt (diagnoseInstruction F)
          ((rest.map SILBasicBlock.instructions).flatten) <;>
        simp [List.flatten_append]

/-- One scan from an empty sink is the in-order concatenation of the
per-instruction diagnostics over `allInstructions`. -/
lemma run_eq_mapOpt (F : SILFunction) :
    run F []
      = (mapOpt (diagnoseInstruction F) (allInstructions F)).map
          List.flatten :=
  runBlocks_eq_mapOpt F F.blocks

end EmitDFDiagnostics

/-- C1: for an `Unreachable` terminator whose valid location tags the
enclosing function declaration or closure expression, a `missing_return`
diagnostic is emitted at the location's end source position, carrying the
declared result type and selector 0 for a function declaration / 1 for a
closure, exactly when the result type is not `Void` and the signature is
not no-return; otherwise nothing is emitted. -/
theorem missing_return_characterization
    (isClosure : Bool) (rt : Ty) (nr : Bool) (s e fs fe : Nat)
    (blocks : List SILBasicBlock) :
    diagnoseUnreachable
        (.unreachable (.valid (mkFunctionNode isClosure rt nr) s e))
        ⟨.valid (mkFunctionNode isClosure rt nr) fs fe, blocks⟩
      = some (if rt.isVoid || nr then []
              else [⟨some e, .missing_return rt (if isClosure then 1 else 0)⟩]) := by
  cases isClosure <;> cases rt <;> cases nr <;>
    simp [mkFunctionNode, diagnoseUnreachable, diagnoseMissingReturn,
      SILInstruction.getLoc, SILLocation.hasASTLocation,
      SILLocation.isASTNodeAbstractFunctionDecl,
      SILLocation.isASTNodeClosureExpr, SILLocation.isASTNodeSwitchStmt,
      SILLocation.getAsFuncDecl, SILLocation.getAsClosureExpr, Ty.isVoid,
      SILLocation.getEndSourceLoc]

/-- A location is never both a `ReturnLocation` and an
`ImplicitReturnLocation`. -/
lemma not_both_return_locs (L : SILLocation) :
    L.isReturnLoc = false ∨ L.isImplicitReturnLoc = false := by
  rcases L with _ | ⟨node, s, e⟩
  · simp [SILLocation.isReturnLoc]
  · cases node <;>
      simp [SILLocation.isReturnLoc, SILLocation.isImplicitReturnLoc]

/-- C2: a `return_from_noreturn` diagnostic is emitted for an instruction
at its location's start source position exactly when the instruction is a
`Branch` or `Return` terminator, the enclosing function's AST origin is a
function declaration whose signature is no-return, and the instruction's
location is an explicit- or implicit-return location; in particular
closures, invalid locations and `Unreachable` instructions emit
nothing. -/
theorem return_from_noreturn_characterization
    (I : SILInstruction) (F : SILFunction) :
    diagnoseReturn I F =
      if (I.isBranchInst || I.isReturnInst)
          && isNoReturnFuncDecl F.loc
          && (I.getLoc.isReturnLoc || I.getLoc.isImplicitReturnLoc) then
        [⟨I.getLoc.getSourceLoc, .return_from_noreturn⟩]
      else [] := by
  cases hbr : (I.isBranchInst || I.isReturnInst) with
  | false => simp [diagnoseReturn, hbr]
  | true =>
    cases hfd : F.loc.getAsFuncDecl with
    | none =>
      simp [diagnoseReturn, hbr, isNoReturnFuncDecl, hfd]
    | some p =>
      rcases p with ⟨rt, nr⟩
      cases nr with
      | false => simp [diagnoseReturn, hbr, isNoReturnFuncDecl, hfd]
      | true =>
        cases hr : I.getLoc.isReturnLoc with
        | false =>
          cases hi : I.getLoc.isImplicitReturnLoc <;>
            simp [diagnoseReturn, hbr, isNoReturnFuncDecl, hfd, hr, hi]
        | true =>
          have hi : I.getLoc.isImplicitReturnLoc = false := by
            rcases not_both_return_locs I.getLoc with h | h
            · rw [h] at hr; exact absurd hr (by simp)
            · exact h
          simp [diagnoseReturn, hbr, isNoReturnFuncDecl, hfd, hr, hi]

/-- C3: an `Apply` instruction gets a `static_report_error` diagnostic at
its source position exactly when its callee is the static-report builtin
reference and its first argument is the integer literal 1; every other
outcome of the diagnoser is silence (or the fatal out-of-bounds case). -/
theorem static_report_characterization
    (L : SILLocation) (callee : SILValue) (args : List SILValue) :
    (diagnoseStaticReports (.apply L callee args)
        = some [⟨L.getSourceLoc, .static_report_error⟩]
      ↔ callee = .builtinRef .StaticReport
        ∧ args.head? = some (.intLiteral 1))
    ∧ (diagnoseStaticReports (.apply L callee args) = none
       ∨ diagnoseStaticReports (.apply L callee args) = some []
       ∨ diagnoseStaticReports (.apply L callee args)
           = some [⟨L.getSourceLoc, .static_report_error⟩]) := by
  rcases callee with bid | v | vid
  · cases bid with
    | StaticReport =>
      cases args with
      | nil => simp [diagnoseStaticReports]
      | cons a rest =>
        rcases a with bid2 | v | vid2
        · simp [diagnoseStaticReports]
        · rcases eq_or_ne v 1 with rfl | hv
          · simp [diagnoseStaticReports]
          · simp [diagnoseStaticReports, hv]
        · simp [diagnoseStaticReports]
    | Trap => simp [diagnoseStaticReports]
    | OtherKind k => simp [diagnoseStaticReports]
  · simp [diagnoseStaticReports]
  · simp [diagnoseStaticReports]

/-- C3 witness: the characterization instantiated at a static-report call
whose first argument is the literal 1. -/
theorem static_report_characterization_witness :
    (diagnoseStaticReports
        (.apply (.valid .otherNode 5 9) (.builtinRef .StaticReport)
          [.intLiteral 1])
        = some [⟨(SILLocation.valid .otherNode 5 9).getSourceLoc,
                 .static_report_error⟩]
      ↔ SILValue.builtinRef .StaticReport
          = SILValue.builtinRef .StaticReport
        ∧ ([SILValue.intLiteral 1].head? = some (.intLiteral 1)))
    ∧ (diagnoseStaticReports
          (.apply (.valid .otherNode 5 9) (.builtinRef .StaticReport)
            [.intLiteral 1]) = none
       ∨ diagnoseStaticReports
          (.apply (.valid .otherNode 5 9) (.builtinRef .StaticReport)
            [.intLiteral 1]) = some []
       ∨ diagnoseStaticReports
          (.apply (.valid .otherNode 5 9) (.builtinRef .StaticReport)
            [.intLiteral 1])
          = some [⟨(SILLocation.valid .otherNode 5 9).getSourceLoc,
                   .static_report_error⟩]) :=
  static_report_characterization (.valid .otherNode 5 9)
    (.builtinRef .StaticReport) [.intLiteral 1]

/-- C4: an `Unreachable` terminator whose location is invalid produces no
diagnostic, whatever the enclosing function's origin, result type or
no-return flag. -/
theorem invalid_location_suppression (F : SILFunction) :
    diagnoseUnreachable (.unreachable .invalid) F = some [] := by
  simp [diagnoseUnreachable, SILInstruction.getLoc,
    SILLocation.hasASTLocation]

/-- C5: an `Unreachable` terminator whose valid location tags a switch
statement gets exactly one argument-free `non_exhaustive_switch`
diagnostic at the location's end source position, and a valid location
tagging any discriminator other than function declaration, closure
expression or switch statement produces no diagnostic. -/
theorem non_exhaustive_switch_characterization
    (F : SILFunction) (s e : Nat) :
    diagnoseUnreachable (.unreachable (.valid .switchStmt s e)) F
        = some [⟨some e, .non_exhaustive_switch⟩]
    ∧ ∀ node : ASTNodeRef, isRecognizedUnreachableNode node = false →
        diagnoseUnreachable (.unreachable (.valid node s e)) F
          = some [] := by
  constructor
  · simp [diagnoseUnreachable, diagnoseNonExhaustiveSwitch,
      SILInstruction.getLoc, SILLocation.hasASTLocation,
      SILLocation.isASTNodeAbstractFunctionDecl,
      SILLocation.isASTNodeClosureExpr, SILLocation.isASTNodeSwitchStmt,
      SILLocation.getEndSourceLoc]
  · intro node h
    cases node <;>
      simp_all [diagnoseUnreachable, isRecognizedUnreachableNode,
        SILInstruction.getLoc, SILLocation.hasASTLocation,
        SILLocation.isASTNodeAbstractFunctionDecl,
        SILLocation.isASTNodeClosureExpr, SILLocation.isASTNodeSwitchStmt]

/-- C5 witness: the switch case and the ignored-discriminator case
(here an explicit-return location) at concrete positions in `egFn`. -/
theorem non_exhaustive_switch_characterization_witness :
    diagnoseUnreachable (.unreachable (.valid .switchStmt 3 8)) egFn
        = some [⟨some 8, .non_exhaustive_switch⟩]
    ∧ diagnoseUnreachable (.unreachable (.valid .returnStmt 3 8)) egFn
        = some [] :=
  ⟨(non_exhaustive_switch_characterization egFn 3 8).1,
   (non_exhaustive_switch_characterization egFn 3 8).2 .returnStmt
     (by decide)⟩

/-- C6: one successful invocation of `run` yields exactly one diagnostic
batch per instruction of the function, taken in block order then in-block
instruction order, and the emitted sequence is their in-order
concatenation, whichever diagnoser produced each batch. -/
theorem run_visits_once_in_order (F : SILFunction) (ds : List Diagnostic)
    (h : EmitDFDiagnostics.run F [] = some ds) :
    ∃ per : List (List Diagnostic),
      mapOpt (diagnoseInstruction F) (allInstructions F) = some per
      ∧ per.length = (allInstructions F).length
      ∧ ds = per.flatten := by
  rw [EmitDFDiagnostics.run_eq_mapOpt] at h
  cases hm : mapOpt (diagnoseInstruction F) (allInstructions F) with
  | none =>
    rw [hm] at h
    exact absurd h (by simp)
  | some per =>
    refine ⟨per, rfl, mapOpt_length_eq _ _ per hm, ?_⟩
    rw [hm] at h
    simp only [Option.map_some', Option.some_inj] at h
    exact h.symm

/-- C6 witness: the traversal property instantiated on `egFn`, whose scan
emits `egDiags`. -/
theorem run_visits_once_in_order_witness :
    ∃ per : List (List Diagnostic),
      mapOpt (diagnoseInstruction egFn) (allInstructions egFn) = some per
      ∧ per.length = (allInstructions egFn).length
      ∧ egDiags = per.flatten :=
  run_visits_once_in_order egFn egDiags (by decide)

/-- C7: the pass is a pure function of the function's instruction and
location state: a second invocation on the unmodified function appends
exactly the same ordered diagnostic sequence again. -/
theorem run_deterministic_reemission (F : SILFunction)
    (ds : List Diagnostic)
    (h : EmitDFDiagnostics.run F [] = some ds) :
    EmitDFDiagnostics.run F ds = some (ds ++ ds) := by
  have hs := EmitDFDiagnostics.runBlocks_shift F F.blocks ds
  rw [show EmitDFDiagnostics.run F ds
        = EmitDFDiagnostics.runBlocks F ds F.blocks from rfl, hs,
     show EmitDFDiagnostics.runBlocks F [] F.blocks
        = EmitDFDiagnostics.run F [] from rfl, h]
  rfl

/-- C7 witness: re-running the pass on `egFn` with its own output as the
sink re-emits `egDiags`. -/
theorem run_deterministic_reemission_witness :
    EmitDFDiagnostics.run egFn egDiags = some (egDiags ++ egDiags) :=
  run_deterministic_reemission egFn egDiags (by decide)

/-- C8: the pass mutates no IR: a successful `runPass` returns the very
function it was given, and its only effect is appending the freshly
emitted diagnostics to the sink it was given. -/
theorem run_no_ir_mutation (st st2 : PassState)
    (h : runPass st = some st2) :
    st2.F = st.F
    ∧ ∃ dsNew : List Diagnostic,
        st2.sink = st.sink ++ dsNew
        ∧ EmitDFDiagnostics.run st.F [] = some dsNew := by
  unfold runPass at h
  cases hr : EmitDFDiagnostics.run st.F st.sink with
  | none => rw [hr] at h; exact absurd h (by simp)
  | some s =>
    rw [hr] at h
    simp only [Option.some_inj] at h
    have hs := EmitDFDiagnostics.runBlocks_shift st.F st.F.blocks st.sink
    rw [show EmitDFDiagnostics.run st.F st.sink
          = EmitDFDiagnostics.runBlocks st.F st.sink st.F.blocks from rfl,
        hs] at hr
    cases h0 : EmitDFDiagnostics.runBlocks st.F [] st.F.blocks with
    | none => rw [h0] at hr; exact absurd hr (by simp)
    | some dsNew =>
      rw [h0] at hr
      simp only [Option.map_some', Option.some_inj] at hr
      refine ⟨by rw [← h], dsNew, ?_, h0⟩
      rw [← h, ← hr]

/-- C8 witness: the frame property instantiated on `egFn` with a
non-empty pre-existing sink. -/
theorem run_no_ir_mutation_witness :
    (⟨egFn, egPre ++ egDiags⟩ : PassState).F
        = (⟨egFn, egPre⟩ : PassState).F
    ∧ ∃ dsNew : List Diagnostic,
        (⟨egFn, egPre ++ egDiags⟩ : PassState).sink
            = (⟨egFn, egPre⟩ : PassState).sink ++ dsNew
        ∧ EmitDFDiagnostics.run (⟨egFn, egPre⟩ : PassState).F []
            = some dsNew :=
  run_no_ir_mutation ⟨egFn, egPre⟩ ⟨egFn, egPre ++ egDiags⟩ (by decide)

/-- C9: the static-assertion diagnoser performs no provenance-validity
check: a static-report call of literal 1 with an invalid location still
emits, at the null (`none`) source position an invalid location
yields. -/
theorem static_report_ignores_location_validity (rest : List SILValue) :
    diagnoseStaticReports
        (.apply .invalid (.builtinRef .StaticReport)
          (.intLiteral 1 :: rest))
      = some [⟨none, .static_report_error⟩]
    ∧ SILLocation.invalid.getSourceLoc = none := by
  constructor
  · simp [diagnoseStaticReports, SILLocation.getSourceLoc]
  · rfl

/-- C10: once the callee is recognized as the static-report builtin, the
first-argument access is in bounds whenever the argument list is
non-empty, and an argument-less static-report call hits the fatal
out-of-bounds branch. -/
theorem static_report_first_arg_bounds :
    (∀ (L : SILLocation) (args : List SILValue), args ≠ [] →
        (diagnoseStaticReports
            (.apply L (.builtinRef .StaticReport) args)).isSome = true)
    ∧ ∀ L : SILLocation,
        diagnoseStaticReports (.apply L (.builtinRef .StaticReport) [])
          = none := by
  constructor
  · intro L args hne
    cases args with
    | nil => exact absurd rfl hne
    | cons a rest =>
      rcases a with bid | v | vid
      · simp [diagnoseStaticReports]
      · rcases eq_or_ne v 1 with rfl | hv
        · simp [diagnoseStaticReports]
        · simp [diagnoseStaticReports, hv]
      · simp [diagnoseStaticReports]
  · intro L
    simp [diagnoseStaticReports]

/-- C10 witness: the in-bounds half instantiated at a one-argument
static-report call. -/
theorem static_report_first_arg_bounds_witness :
    (diagnoseStaticReports
        (.apply .invalid (.builtinRef .StaticReport)
          [.otherValue 0])).isSome = true :=
  static_report_first_arg_bounds.1 .invalid [.otherValue 0] (by decide)
